import Mathlib

/-!
Verification of the mpris-lyrics-rs reconciliation core against its
natural-language specification.

The Rust sources are shallowly embedded below.  Hash maps
(`std::collections::HashMap`) are modelled as association lists in
insertion order; `HashMap::insert` replaces in place, `remove` deletes
the matching key.  Machine integers (`u64`) are modelled as `Nat`
(no arithmetic in the embedded code can overflow on the inputs the
program handles, and none of the claims involves wraparound).
Rust strings are modelled as `String` / `List Char` (`\d` of the
timestamp regex is modelled as ASCII `Char.isDigit`; `str::parse::<u64>`
accepts exactly ASCII digit runs, so on every captured group it
succeeds, which is why the embedded parser is total).

The repository ships two divergent iterations of several modules.
Only one of each pair is reachable from `lib.rs`:
`src/lyrics/mod.rs` is the live `LyricsManager` (`src/lyrics/manager.rs`
is declared in no module tree), and the `mpris/` directory holds the
live listener.  Claims are settled against the reachable iteration;
for the LRC parser the embedded code is `src/utils/lrc.rs`, the file
the claims cite (the iterations agree except for which tag end
delimits the lyric text).
-/

set_option maxHeartbeats 1000000

namespace MprisLyrics

/-! ## Data model (src/mpris/types.rs, src/lyrics/mod.rs) -/

/-- The `PlaybackStatus` from src/mpris/types.rs. -/
inductive PlaybackStatus where
  | Playing
  | Paused
  | Stopped
deriving DecidableEq, Repr

/-- The `TrackInfo` from src/mpris/types.rs.  The opaque `TrackID` is
modelled as its path string. -/
structure TrackInfo where
  title : String
  artist : String
  album : String
  length_ms : Nat
  id : String
deriving DecidableEq, Repr

/-- The `PlayerState` from src/mpris/types.rs. -/
structure PlayerState where
  track_info : Option TrackInfo
  playback_status : Option PlaybackStatus
  last_position_ms : Nat
deriving DecidableEq, Repr

/-- The `PlayerEvent` from src/mpris/types.rs.  The `NoPlayersAvailable`
variant is constructed by src/mpris/listener.rs and matched in
src/app/core.rs, so it is part of the live event vocabulary. -/
inductive PlayerEvent where
  | PlaybackStatusChanged (player_name : String) (status : PlaybackStatus)
  | TrackChanged (player_name : String) (track_info : TrackInfo)
  | PositionChanged (player_name : String) (position_ms : Nat)
  | PlayerDisappeared (player_name : String)
  | PlayerAppeared (player_name : String)
  | ActivePlayerChanged (player_name : String) (status : PlaybackStatus)
  | NoPlayersAvailable
deriving DecidableEq, Repr

/-- A single lyric line (`LyricLine`, src/lyrics/mod.rs). -/
structure LyricLine where
  start_time : Nat
  end_time : Option Nat
  text : String
deriving DecidableEq, Repr

/-- Lyrics metadata (`LyricsMetadata`, src/lyrics/mod.rs); the
`extra : HashMap<String,String>` field is an association list. -/
structure LyricsMetadata where
  title : String
  artist : String
  album : String
  source : String
  extra : List (String × String)
deriving DecidableEq, Repr

/-- A full lyrics document (`Lyrics`, src/lyrics/mod.rs). -/
structure Lyrics where
  metadata : LyricsMetadata
  lines : List LyricLine
deriving DecidableEq, Repr

/-! ## Association-list model of `HashMap` -/

/-- The `HashMap::get` / `contains_key`. -/
def lookupAL {β : Type} (k : String) : List (String × β) → Option β
  | [] => none
  | (k', v) :: t => if k = k' then some v else lookupAL k t

/-- The `HashMap::insert`: replace in place, else append. -/
def insertAL {β : Type} (k : String) (v : β) : List (String × β) → List (String × β)
  | [] => [(k, v)]
  | (k', v') :: t => if k = k' then (k, v) :: t else (k', v') :: insertAL k v t

/-- The `HashMap::remove`.  A `HashMap` holds each key at most once; the
embedding removes every binding of the key so that the model is
key-unique regardless of how the list was built. -/
def removeAL {β : Type} (k : String) : List (String × β) → List (String × β)
  | [] => []
  | (k', v') :: t => if k = k' then removeAL k t else (k', v') :: removeAL k t

theorem lookupAL_insert {β : Type} (k : String) (v : β) (l : List (String × β)) :
    lookupAL k (insertAL k v l) = some v := by
  induction l with
  | nil => simp [insertAL, lookupAL]
  | cons h t ih =>
    obtain ⟨k', v'⟩ := h
    by_cases hk : k = k' <;> simp [insertAL, lookupAL, hk, ih]

theorem lookupAL_insert_ne {β : Type} {k k' : String} (v : β) (l : List (String × β))
    (h : k ≠ k') : lookupAL k (insertAL k' v l) = lookupAL k l := by
  induction l with
  | nil => simp [insertAL, lookupAL, h]
  | cons hd t ih =>
    obtain ⟨k'', v''⟩ := hd
    by_cases hk : k' = k''
    · subst hk; simp [insertAL, lookupAL, h]
    · by_cases hk2 : k = k'' <;> simp [insertAL, lookupAL, hk, hk2, ih]

theorem lookupAL_remove_ne {β : Type} {k k' : String} (l : List (String × β))
    (h : k ≠ k') : lookupAL k (removeAL k' l) = lookupAL k l := by
  induction l with
  | nil => simp [removeAL]
  | cons hd t ih =>
    obtain ⟨k'', v''⟩ := hd
    by_cases hk : k' = k''
    · subst hk; simp [removeAL, lookupAL, h, ih]
    · by_cases hk2 : k = k'' <;> simp [removeAL, lookupAL, hk, hk2, ih]

theorem lookupAL_remove_self {β : Type} (k : String) (l : List (String × β)) :
    lookupAL k (removeAL k l) = none := by
  induction l with
  | nil => simp [removeAL, lookupAL]
  | cons hd t ih =>
    obtain ⟨k', v'⟩ := hd
    by_cases hk : k = k'
    · subst hk; simp [removeAL, lookupAL, ih]
    · simp [removeAL, lookupAL, hk, ih, Ne.symm hk]

/-! ## src/mpris/events.rs -/

/-- The `compare_single_player_state` (src/mpris/events.rs:65-151):
diff of one identity present in both snapshots.  Events are pushed in
source order: track change, then status change, then position change. -/
def compareSinglePlayerState (identity : String) (old_state current_state : PlayerState) :
    List PlayerEvent :=
  let trackEvents : List PlayerEvent :=
    match old_state.track_info, current_state.track_info with
    | some old_track, some current_track =>
      -- id, then title, then artist comparison; any difference marks a change
      if old_track.id ≠ current_track.id ∨ old_track.title ≠ current_track.title ∨
          old_track.artist ≠ current_track.artist then
        [.TrackChanged identity current_track]
      else []
    | none, some current_track => [.TrackChanged identity current_track]
    | _, _ => []
  let statusEvents : List PlayerEvent :=
    match old_state.playback_status, current_state.playback_status with
    | some old_status, some current_status =>
      if old_status ≠ current_status then
        [.PlaybackStatusChanged identity current_status]
      else []
    | none, some current_status => [.PlaybackStatusChanged identity current_status]
    | _, _ => []
  let positionEvents : List PlayerEvent :=
    match current_state.playback_status with
    | some current_status =>
      if current_status = .Playing ∧
          old_state.last_position_ms ≠ current_state.last_position_ms then
        [.PositionChanged identity current_state.last_position_ms]
      else []
    | none => []
  trackEvents ++ statusEvents ++ positionEvents

/-- Events for a player absent from the old snapshot
(src/mpris/events.rs:13-45): appeared, then its track, then its status. -/
def newPlayerEvents (identity : String) (current_state : PlayerState) : List PlayerEvent :=
  [.PlayerAppeared identity] ++
  (match current_state.track_info with
   | some track_info => [.TrackChanged identity track_info]
   | none => []) ++
  (match current_state.playback_status with
   | some playback_status => [.PlaybackStatusChanged identity playback_status]
   | none => [])

/-- The `compare_states_and_generate_events` (src/mpris/events.rs:7-62).
Three passes: new players, vanished players, per-player diffs. -/
def compareStatesAndGenerateEvents (current_states_data old_states : List (String × PlayerState)) :
    List PlayerEvent :=
  (current_states_data.foldr
    (fun (p : String × PlayerState) acc =>
      (if (lookupAL p.1 old_states).isNone then newPlayerEvents p.1 p.2 else []) ++ acc) []) ++
  (old_states.foldr
    (fun (p : String × PlayerState) acc =>
      (if (lookupAL p.1 current_states_data).isNone then [.PlayerDisappeared p.1] else []) ++ acc)
    []) ++
  (current_states_data.foldr
    (fun (p : String × PlayerState) acc =>
      (match lookupAL p.1 old_states with
       | some old_state => compareSinglePlayerState p.1 old_state p.2
       | none => []) ++ acc) [])

/-- The `determine_and_update_active_player` (src/mpris/events.rs:154-202).
Returns the updated pointer together with the optional change event. -/
def determineAndUpdateActivePlayer (current_playing_players current_paused_players : List String)
    (current_states_data : List (String × PlayerState)) (active : Option String) :
    Option String × Option PlayerEvent :=
  let need_change :=
    match active with
    | some current_active => (lookupAL current_active current_states_data).isNone
    | none => !current_states_data.isEmpty
  if need_change || active.isNone then
    match current_playing_players with
    | new_active :: _ => (some new_active, some (.ActivePlayerChanged new_active .Playing))
    | [] =>
      match current_paused_players with
      | new_active :: _ => (some new_active, some (.ActivePlayerChanged new_active .Paused))
      | [] =>
        match current_states_data with
        | (new_active, _) :: _ => (some new_active, some (.ActivePlayerChanged new_active .Stopped))
        | [] => (none, none)
  else (active, none)

/-! ## src/mpris/listener.rs -/

/-- The `fetch_current_player_states` (src/mpris/listener.rs:172-222), after
the discovery query has produced the raw (identity, state) readings in
discovery order: the identity joins the playing (resp. paused) list
exactly when its status reads `Playing` (resp. `Paused`), and every
reading is inserted into the snapshot map. -/
def fetchClassify (players : List (String × PlayerState)) :
    List (String × PlayerState) × List String × List String :=
  players.foldl
    (fun acc p =>
      let (states, playing, paused) := acc
      match p.2.playback_status with
      | some .Playing => (insertAL p.1 p.2 states, playing ++ [p.1], paused)
      | some .Paused => (insertAL p.1 p.2 states, playing, paused ++ [p.1])
      | _ => (insertAL p.1 p.2 states, playing, paused))
    ([], [], [])

/-- One poll tick, `poll_players_and_send_events_static`
(src/mpris/listener.rs:74-169): returns (new snapshot cache, new active
pointer, events sent this tick, in order).  On an empty snapshot the
function returns early: the cache is left unchanged and the pointer is
cleared (the 30-second `NoPlayersAvailable` re-send timer is real-time
behaviour and is not modelled; the event is modelled for the
deterministic pointer-was-set branch). -/
def pollTick (cache : List (String × PlayerState)) (active : Option String)
    (players : List (String × PlayerState)) :
    List (String × PlayerState) × Option String × List PlayerEvent :=
  let (current_states_data, current_playing_players, current_paused_players) :=
    fetchClassify players
  if current_states_data.isEmpty then
    (cache, none, if active.isSome then [.NoPlayersAvailable] else [])
  else
    let events_to_send := compareStatesAndGenerateEvents current_states_data cache
    let (active', active_event) :=
      determineAndUpdateActivePlayer current_playing_players current_paused_players
        current_states_data active
    (current_states_data, active', events_to_send ++ active_event.toList)

/-- The polling loop state after a sequence of ticks
(src/mpris/listener.rs:44-71). -/
def pollRun (init : List (String × PlayerState) × Option String)
    (ticks : List (List (String × PlayerState))) :
    List (String × PlayerState) × Option String :=
  ticks.foldl
    (fun acc players =>
      let (cache, active, _) := pollTick acc.1 acc.2 players
      (cache, active))
    init

/-! ## src/app/core.rs -/

/-- Recognizer for the `PositionChanged` variant. -/
def isPositionChanged : PlayerEvent → Bool
  | .PositionChanged _ _ => true
  | _ => false

/-- One iteration of `forward_events` (src/app/core.rs:94-191): the pair
of message lists (to the lyrics queue, to the display queue) produced
for one event taken from the merged stream.  Mirrors the source's flag
logic: `send_to_display` is always true, `send_to_lyrics` is cleared
for `PositionChanged`, and `ActivePlayerChanged` is sent to both queues
directly with the generic send skipped. -/
def forwardEvent (event : PlayerEvent) : List PlayerEvent × List PlayerEvent :=
  let send_to_lyrics := match event with
    | .PositionChanged _ _ => false
    | _ => true
  let send_to_display := true
  match event with
  | .ActivePlayerChanged _ _ => ([event], [event])
  | _ =>
    ((if send_to_lyrics then [event] else []), (if send_to_display then [event] else []))

/-- The whole `forward_events` loop over a finite stream. -/
def forwardStream (events : List PlayerEvent) : List PlayerEvent × List PlayerEvent :=
  events.foldl
    (fun acc event =>
      let (to_lyrics, to_display) := forwardEvent event
      (acc.1 ++ to_lyrics, acc.2 ++ to_display))
    ([], [])

/-! ## Invariant machinery for the active pointer (claim C1) -/

/-- The pointer invariant: if set, the active pointer names a key of the
snapshot cache. -/
def ActiveInv (s : List (String × PlayerState) × Option String) : Prop :=
  ∀ n, s.2 = some n → (lookupAL n s.1).isSome

theorem isSome_lookupAL_insert {k n : String} {v : PlayerState}
    {l : List (String × PlayerState)} (h : (lookupAL n l).isSome) :
    (lookupAL n (insertAL k v l)).isSome := by
  by_cases hk : n = k
  · subst hk; simp [lookupAL_insert]
  · rwa [lookupAL_insert_ne _ _ hk]

theorem fetchClassify_go_inv (players : List (String × PlayerState))
    (acc : List (String × PlayerState) × List String × List String)
    (hplay : ∀ n ∈ acc.2.1, (lookupAL n acc.1).isSome)
    (hpause : ∀ n ∈ acc.2.2, (lookupAL n acc.1).isSome) :
    (∀ n ∈ (players.foldl
      (fun acc p =>
        let (states, playing, paused) := acc
        match p.2.playback_status with
        | some .Playing => (insertAL p.1 p.2 states, playing ++ [p.1], paused)
        | some .Paused => (insertAL p.1 p.2 states, playing, paused ++ [p.1])
        | _ => (insertAL p.1 p.2 states, playing, paused)) acc).2.1,
      (lookupAL n (players.foldl
        (fun acc p =>
          let (states, playing, paused) := acc
          match p.2.playback_status with
          | some .Playing => (insertAL p.1 p.2 states, playing ++ [p.1], paused)
          | some .Paused => (insertAL p.1 p.2 states, playing, paused ++ [p.1])
          | _ => (insertAL p.1 p.2 states, playing, paused)) acc).1).isSome) ∧
    (∀ n ∈ (players.foldl
      (fun acc p =>
        let (states, playing, paused) := acc
        match p.2.playback_status with
        | some .Playing => (insertAL p.1 p.2 states, playing ++ [p.1], paused)
        | some .Paused => (insertAL p.1 p.2 states, playing, paused ++ [p.1])
        | _ => (insertAL p.1 p.2 states, playing, paused)) acc).2.2,
      (lookupAL n (players.foldl
        (fun acc p =>
          let (states, playing, paused) := acc
          match p.2.playback_status with
          | some .Playing => (insertAL p.1 p.2 states, playing ++ [p.1], paused)
          | some .Paused => (insertAL p.1 p.2 states, playing, paused ++ [p.1])
          | _ => (insertAL p.1 p.2 states, playing, paused)) acc).1).isSome) := by
  induction players generalizing acc with
  | nil => exact ⟨hplay, hpause⟩
  | cons p rest ih =>
    obtain ⟨states, playing, paused⟩ := acc
    simp only [List.foldl_cons]
    rcases hps : p.2.playback_status with _ | st
    · refine ih _ ?_ ?_ <;> simp only [hps] <;>
        intro n hn <;> exact isSome_lookupAL_insert (by simp_all)
    · cases st
      · refine ih _ ?_ ?_ <;> simp only [hps]
        · intro n hn
          rcases List.mem_append.mp hn with hn | hn
          · exact isSome_lookupAL_insert (hplay n hn)
          · simp only [List.mem_singleton] at hn
            subst hn; simp [lookupAL_insert]
        · intro n hn
          exact isSome_lookupAL_insert (hpause n hn)
      · refine ih _ ?_ ?_ <;> simp only [hps]
        · intro n hn
          exact isSome_lookupAL_insert (hplay n hn)
        · intro n hn
          rcases List.mem_append.mp hn with hn | hn
          · exact isSome_lookupAL_insert (hpause n hn)
          · simp only [List.mem_singleton] at hn
            subst hn; simp [lookupAL_insert]
      · refine ih _ ?_ ?_ <;> simp only [hps] <;>
        intro n hn <;> exact isSome_lookupAL_insert (by simp_all)

theorem fetchClassify_playing_mem (players : List (String × PlayerState)) :
    ∀ n ∈ (fetchClassify players).2.1, (lookupAL n (fetchClassify players).1).isSome :=
  (fetchClassify_go_inv players ([], [], []) (by simp) (by simp)).1

theorem fetchClassify_paused_mem (players : List (String × PlayerState)) :
    ∀ n ∈ (fetchClassify players).2.2, (lookupAL n (fetchClassify players).1).isSome :=
  (fetchClassify_go_inv players ([], [], []) (by simp) (by simp)).2

theorem determine_active_mem (playing paused : List String)
    (cur : List (String × PlayerState)) (active : Option String)
    (hplay : ∀ n ∈ playing, (lookupAL n cur).isSome)
    (hpause : ∀ n ∈ paused, (lookupAL n cur).isSome) :
    ∀ n, (determineAndUpdateActivePlayer playing paused cur active).1 = some n →
      (lookupAL n cur).isSome := by
  intro n hn
  rcases active with _ | a
  · rcases playing with _ | ⟨p, ps⟩
    · rcases paused with _ | ⟨q, qs⟩
      · rcases cur with _ | ⟨⟨k, v⟩, t⟩
        · simp [determineAndUpdateActivePlayer] at hn
        · simp [determineAndUpdateActivePlayer] at hn
          subst hn
          simp [lookupAL]
      · simp [determineAndUpdateActivePlayer] at hn
        subst hn
        exact hpause q (by simp)
    · simp [determineAndUpdateActivePlayer] at hn
      subst hn
      exact hplay p (by simp)
  · by_cases hl : lookupAL a cur = none
    · rcases playing with _ | ⟨p, ps⟩
      · rcases paused with _ | ⟨q, qs⟩
        · rcases cur with _ | ⟨⟨k, v⟩, t⟩
          · simp [determineAndUpdateActivePlayer, lookupAL] at hn
          · simp [determineAndUpdateActivePlayer, hl] at hn
            subst hn
            simp [lookupAL]
        · simp [determineAndUpdateActivePlayer, hl] at hn
          subst hn
          exact hpause q (by simp)
      · simp [determineAndUpdateActivePlayer, hl] at hn
        subst hn
        exact hplay p (by simp)
    · have hfalse : (lookupAL a cur).isNone = false := by
        cases h : lookupAL a cur
        · exact absurd h hl
        · rfl
      simp [determineAndUpdateActivePlayer, hfalse] at hn
      subst hn
      exact Option.ne_none_iff_isSome.mp hl

theorem pollTick_activeInv (cache : List (String × PlayerState)) (active : Option String)
    (players : List (String × PlayerState)) :
    ActiveInv ((pollTick cache active players).1, (pollTick cache active players).2.1) := by
  intro n hn
  have hplay := fetchClassify_playing_mem players
  have hpause := fetchClassify_paused_mem players
  rcases hfc : fetchClassify players with ⟨cur, playing, paused⟩
  rw [hfc] at hplay hpause
  by_cases hemp : cur.isEmpty
  · simp only [pollTick, hfc, hemp, if_true] at hn
    simp at hn
  · simp only [pollTick, hfc, Bool.not_eq_true, hemp, if_false] at hn ⊢
    exact determine_active_mem playing paused cur active hplay hpause n hn

theorem pollRun_activeInv (init : List (String × PlayerState) × Option String)
    (ticks : List (List (String × PlayerState))) (h : ActiveInv init) :
    ActiveInv (pollRun init ticks) := by
  induction ticks generalizing init with
  | nil => exact h
  | cons t rest ih =>
    have hstep := pollTick_activeInv init.1 init.2 t
    rcases hpt : pollTick init.1 init.2 t with ⟨c, a, evs⟩
    rw [hpt] at hstep
    have : pollRun init (t :: rest) = pollRun (c, a) rest := by
      simp [pollRun, hpt]
    rw [this]
    exact ih _ hstep

/-- C1 (invariants): after every poll tick — for every prior state and
every discovery reading, hence along every sequence of snapshots — the
active-player pointer is either unset or equal to an identity that is a
key of the snapshot map cached by that same tick; on a tick where all
players vanish the pointer is cleared, so the invariant holds there too. -/
theorem C1_active_pointer_in_cached_snapshot :
    (∀ cache active players,
      ActiveInv ((pollTick cache active players).1, (pollTick cache active players).2.1)) ∧
    (∀ init ticks, ActiveInv init → ActiveInv (pollRun init ticks)) :=
  ⟨pollTick_activeInv, pollRun_activeInv⟩

/-- Witness for C1: a concrete run (one player appears playing, then all
players vanish) with the hypothesis discharged at the empty start state. -/
theorem C1_active_pointer_in_cached_snapshot_witness :
    ActiveInv (pollRun ([], none)
      [[("Spotify", ⟨none, some .Playing, 0⟩)], []]) :=
  C1_active_pointer_in_cached_snapshot.2 ([], none)
    [[("Spotify", ⟨none, some .Playing, 0⟩)], []]
    (fun n h => by simp at h)

/-- C9 (temporal / distribution): for every event taken from the
merged stream, the distributor forwards `PositionChanged` only to the
display (rendering) queue and never to the lyrics queue, while an event
of every other kind goes to both queues; consequently over a whole
stream the lyrics queue receives exactly the non-`PositionChanged`
events and the display queue receives every event, in order. -/
theorem C9_position_changed_only_to_display :
    (∀ event, forwardEvent event =
      ((if isPositionChanged event then [] else [event]), [event])) ∧
    (∀ events, forwardStream events =
      (events.filter (fun e => !isPositionChanged e), events)) := by
  constructor
  · intro e
    cases e <;> rfl
  · have go : ∀ (es l d : List PlayerEvent),
        es.foldl (fun acc event =>
          let (to_lyrics, to_display) := forwardEvent event
          (acc.1 ++ to_lyrics, acc.2 ++ to_display)) (l, d) =
        (l ++ es.filter (fun e => !isPositionChanged e), d ++ es) := by
      intro es
      induction es with
      | nil => simp
      | cons e rest ih =>
        intro l d
        have hfe : forwardEvent e = ((if isPositionChanged e then [] else [e]), [e]) := by
          cases e <;> rfl
        simp only [List.foldl_cons, hfe]
        rw [ih]
        cases hp : isPositionChanged e <;>
          simp [hp, List.filter_cons, List.append_assoc]
    intro events
    simpa using go events [] []

/-! ## Claim C6: the PositionChanged diff rule -/

/-- C6 counterexample: the claim says backward or non-increasing
position movement never emits `PositionChanged` and that a forward move
must exceed 500 ms.  In src/mpris/events.rs:139-150 the diff emits
`PositionChanged` whenever the current status is `Playing` and the
position merely *differs*: a backward move 1000 → 400 emits the event. -/
theorem C6_counterexample :
    PlayerEvent.PositionChanged "mpv" 400 ∈
      compareSinglePlayerState "mpv" ⟨none, some .Playing, 1000⟩ ⟨none, some .Playing, 400⟩ ∧
    (400 : Nat) < 1000 := by
  decide

/-- C6 (amended): for an identity present in both snapshots, the
diff emits `PositionChanged` (with the new position) exactly when the
current status is `Playing` and `last_position_ms` differs from the
previous tick's value — any change, forward or backward, with no
minimum threshold. -/
theorem C6_position_changed_iff_position_differs
    (identity : String) (old_state current_state : PlayerState) :
    (compareSinglePlayerState identity old_state current_state).filter isPositionChanged =
      (if current_state.playback_status = some .Playing ∧
          old_state.last_position_ms ≠ current_state.last_position_ms then
        [.PositionChanged identity current_state.last_position_ms]
      else []) := by
  unfold compareSinglePlayerState
  simp only [List.filter_append]
  rcases old_state.track_info with _ | ot <;>
    rcases hct : current_state.track_info with _ | ct <;>
    rcases old_state.playback_status with _ | os <;>
    rcases hcs : current_state.playback_status with _ | cs <;>
    simp only [hcs] <;>
    split_ifs <;>
    simp_all [isPositionChanged, List.filter]

/-! ## src/lyrics/mod.rs — the lyrics orchestrator (`LyricsManager`)

`src/lyrics/manager.rs` is reachable from no module tree (`lib.rs`
declares `pub mod lyrics`, resolved by `src/lyrics/mod.rs`, which
declares only `pub mod providers`), so the definitions below embed
`src/lyrics/mod.rs`. -/

/-- A lyrics provider (`LyricsProvider` trait, src/lyrics/mod.rs:50-56);
`search_lyrics` returns `Result<Option<Lyrics>>`, modelled as
`Except String (Option Lyrics)`. -/
structure LyricsProvider where
  name : String
  search_lyrics : TrackInfo → Except String (Option Lyrics)

/-- The `str::trim().is_empty()`: true exactly when every character is
whitespace (Rust trims Unicode `White_Space`; `Char.isWhitespace`
covers the space/tab/newline cases that occur here). -/
def trimIsEmpty (s : String) : Bool :=
  s.data.all (fun c => c.isWhitespace)

/-- The `LyricsManager::fetch_lyrics_from_providers`
(src/lyrics/mod.rs:372-422).  Besides the `Option Lyrics` result the
embedding also returns the trace of provider names whose
`search_lyrics` was invoked, in invocation order (read off the loop; the
Rust function logs exactly these calls).  A provider returning `Ok(Some)`
with an *empty* line list is skipped, `Ok(None)` and `Err` are skipped,
the first non-empty document short-circuits; the surrounding `Result` is
always `Ok`, so the embedding is total. -/
def fetchLyricsFromProviders (providers : List LyricsProvider) (track : TrackInfo) :
    Option Lyrics × List String :=
  if trimIsEmpty track.title then (none, [])
  else go providers
where
  go : List LyricsProvider → Option Lyrics × List String
    | [] => (none, [])
    | provider :: rest =>
      match provider.search_lyrics track with
      | .ok (some lyrics) =>
        if lyrics.lines.isEmpty then
          let (r, invoked) := go rest
          (r, provider.name :: invoked)
        else (some lyrics, [provider.name])
      | .ok none =>
        let (r, invoked) := go rest
        (r, provider.name :: invoked)
      | .error _ =>
        let (r, invoked) := go rest
        (r, provider.name :: invoked)

/-- The mutable state of `LyricsManager` (src/lyrics/mod.rs:60-67).
`pending_fetches` models the lyric lookups spawned by
`handle_track_changed` that have not completed yet. -/
structure OrchState where
  current_lyrics : List (String × Lyrics)
  current_player : Option String
  current_track : List (String × TrackInfo)
  player_status : List (String × PlaybackStatus)
  pending_fetches : List (String × TrackInfo)
deriving DecidableEq, Repr

/-- The duplicate-event check of `handle_track_changed`
(src/lyrics/mod.rs:283-292): same stored title and artist. -/
def isDuplicateTrack (s : OrchState) (player_name : String) (track_info : TrackInfo) : Bool :=
  match lookupAL player_name s.current_track with
  | some current_track =>
    current_track.title == track_info.title && current_track.artist == track_info.artist
  | none => false

/-- The `notify_active_player_changed` (src/lyrics/mod.rs:464-494): the
event it sends, with the status looked up in the status map and
defaulting to `Stopped`. -/
def notifyActivePlayerChanged (player_status : List (String × PlaybackStatus))
    (player_name : String) : PlayerEvent :=
  .ActivePlayerChanged player_name ((lookupAL player_name player_status).getD .Stopped)

/-- The synchronous part of `handle_track_changed`
(src/lyrics/mod.rs:276-345): duplicate check, track-map update,
active-player assignment when none is set, cache invalidation, and the
spawn of the provider lookup (appended to `pending_fetches`).
Returns the state and the notifications sent. -/
def handleTrackChangedSync (s : OrchState) (player_name : String) (track_info : TrackInfo) :
    OrchState × List PlayerEvent :=
  if isDuplicateTrack s player_name track_info then (s, [])
  else
    let tracks := insertAL player_name track_info s.current_track
    let (current_player, notifications) :=
      match s.current_player with
      | none => (some player_name, [notifyActivePlayerChanged s.player_status player_name])
      | some c => (some c, ([] : List PlayerEvent))
    ({ current_lyrics := removeAL player_name s.current_lyrics,
       current_player := current_player,
       current_track := tracks,
       player_status := s.player_status,
       pending_fetches := s.pending_fetches ++ [(player_name, track_info)] }, notifications)

/-- Completion of one spawned lookup (the `tokio::spawn` body,
src/lyrics/mod.rs:346-366): on a hit the document is inserted into the
cache for that player *unconditionally* — there is no check that the
fetched track is still the player's latest. -/
def applyFetchCompletion (providers : List LyricsProvider) (s : OrchState)
    (fetch : String × TrackInfo) : OrchState :=
  match (fetchLyricsFromProviders providers fetch.2).1 with
  | some lyrics =>
    { s with current_lyrics := insertAL fetch.1 lyrics s.current_lyrics,
             pending_fetches := s.pending_fetches.erase fetch }
  | none => { s with pending_fetches := s.pending_fetches.erase fetch }

/-- The `handle_track_changed` when its spawned lookup completes before
anything else runs (the serial schedule): the synchronous part followed
by the completion of the fetch it spawned.  Returns the state and the
trace of providers invoked. -/
def handleTrackChangedSerial (providers : List LyricsProvider) (s : OrchState)
    (player_name : String) (track_info : TrackInfo) : OrchState × List String :=
  if isDuplicateTrack s player_name track_info then (s, [])
  else
    let s1 := (handleTrackChangedSync s player_name track_info).1
    (applyFetchCompletion providers s1 (player_name, track_info),
     (fetchLyricsFromProviders providers track_info).2)

/-- The `select_best_player` (src/lyrics/mod.rs:241-273): first Playing
entry of the status map that has track info, else first such Paused
entry, else the first player with track info, else none. -/
def selectBestPlayer (s : OrchState) : Option String :=
  match s.player_status.find?
      (fun p => p.2 == PlaybackStatus.Playing && (lookupAL p.1 s.current_track).isSome) with
  | some p => some p.1
  | none =>
    match s.player_status.find?
        (fun p => p.2 == PlaybackStatus.Paused && (lookupAL p.1 s.current_track).isSome) with
    | some p => some p.1
    | none =>
      match s.current_track with
      | (name, _) :: _ => some name
      | [] => none

/-- One iteration of `LyricsManager::run` (src/lyrics/mod.rs:88-238):
the state update and the `ActivePlayerChanged` notifications sent for
one received event.  `PositionChanged` and `ActivePlayerChanged` do not
change the state; the source `match` has no `NoPlayersAvailable` arm, so
it is a no-op. -/
def managerStep (s : OrchState) : PlayerEvent → OrchState × List PlayerEvent
  | .TrackChanged player_name track_info => handleTrackChangedSync s player_name track_info
  | .PlaybackStatusChanged player_name status =>
    let s1 := { s with player_status := insertAL player_name status s.player_status }
    match status with
    | .Playing =>
      if s1.current_player = some player_name then (s1, [])
      else ({ s1 with current_player := some player_name },
        [notifyActivePlayerChanged s1.player_status player_name])
    | _ =>
      match s1.current_player with
      | some current_name =>
        if current_name = player_name then
          match selectBestPlayer s1 with
          | some best_player =>
            if best_player ≠ player_name then
              ({ s1 with current_player := some best_player },
               [notifyActivePlayerChanged s1.player_status best_player])
            else (s1, [])
          | none => (s1, [])
        else (s1, [])
      | none => (s1, [])
  | .PlayerAppeared player_name =>
    let s1 := { s with player_status := insertAL player_name .Stopped s.player_status }
    match s1.current_player with
    | none => ({ s1 with current_player := some player_name },
        [notifyActivePlayerChanged s1.player_status player_name])
    | some _ => (s1, [])
  | .PlayerDisappeared player_name =>
    let s1 := { s with player_status := removeAL player_name s.player_status }
    match s1.current_player with
    | some current_name =>
      if current_name = player_name then
        let s2 := { s1 with current_player := none }
        match selectBestPlayer s2 with
        | some best_player =>
          ({ s2 with current_player := some best_player },
           [notifyActivePlayerChanged s2.player_status best_player])
        | none =>
          match s2.current_track.find? (fun q => q.1 != player_name) with
          | some q => ({ s2 with current_player := some q.1 },
              [notifyActivePlayerChanged s2.player_status q.1])
          | none => (s2, [])
      else (s1, [])
    | none => (s1, [])
  | .PositionChanged _ _ => (s, [])
  | .ActivePlayerChanged _ _ => (s, [])
  | .NoPlayersAvailable => (s, [])

/-- The `LyricsManager::run` over a finite event list: final state and all
notifications emitted, in order. -/
def managerRun (s : OrchState) : List PlayerEvent → OrchState × List PlayerEvent
  | [] => (s, [])
  | e :: rest =>
    let (s1, out) := managerStep s e
    let (s2, out') := managerRun s1 rest
    (s2, out ++ out')

/-- The `get_current_lyrics` (src/lyrics/mod.rs:425-433). -/
def getCurrentLyrics (s : OrchState) : Option Lyrics :=
  match s.current_player with
  | some player => lookupAL player s.current_lyrics
  | none => none

/-- The line-scanning loop of `get_lyric_at_time`
(src/lyrics/mod.rs:441-455): return the first line whose start time is
≤ `time_ms` and whose successor (when it exists) starts strictly later;
with no such line the result is `None`. -/
def lyricLineAtTime (time_ms : Nat) : List LyricLine → Option LyricLine
  | [] => none
  | [line] => if line.start_time ≤ time_ms then some line else none
  | line :: next_line :: rest =>
    if line.start_time ≤ time_ms ∧ time_ms < next_line.start_time then some line
    else lyricLineAtTime time_ms (next_line :: rest)

/-- The `get_lyric_at_time` (src/lyrics/mod.rs:436-461). -/
def getLyricAtTime (s : OrchState) (time_ms : Nat) : Option LyricLine :=
  match getCurrentLyrics s with
  | some lyrics => lyricLineAtTime time_ms lyrics.lines
  | none => none

/-! ## Claim C2: the {A:Playing} → {A:Paused, B:Playing} handover -/

/-- Recognizer for the `ActivePlayerChanged` variant. -/
def isActivePlayerChanged : PlayerEvent → Bool
  | .ActivePlayerChanged _ _ => true
  | _ => false

/-- C2 (functional correctness): with the previous snapshot
`{A: Playing}`, A active, and the new snapshot `{A: Paused, B: Playing}`,
processing the tick end-to-end — the listener's diff + arbiter
(src/mpris/events.rs), the distributor (src/app/core.rs), and the
lyrics manager's run loop (src/lyrics/mod.rs) — produces exactly one
`ActivePlayerChanged` event, and it selects B (reported `Playing`).
The arbiter itself emits nothing (A is still present in the snapshot);
the single event is the manager's reaction to B's
`PlaybackStatusChanged(Playing)`. -/
theorem C2_exactly_one_active_change_selecting_B :
    (let tick := pollTick [("A", ⟨none, some .Playing, 0⟩)] (some "A")
        [("A", ⟨none, some .Paused, 0⟩), ("B", ⟨none, some .Playing, 0⟩)]
     let notifications := (managerRun ⟨[], some "A", [], [("A", .Playing)], []⟩
        (forwardStream tick.2.2).1).2
     (tick.2.2 ++ notifications).filter isActivePlayerChanged =
        [.ActivePlayerChanged "B" .Playing]) := by
  decide

/-! ## Claim C3: overlapping fetches for the same player -/

/-- First track of the C3 scenario. -/
def c3Track1 : TrackInfo := ⟨"Song1", "ArtistX", "", 300000, "/track/1"⟩

/-- Second track of the C3 scenario. -/
def c3Track2 : TrackInfo := ⟨"Song2", "ArtistX", "", 210000, "/track/2"⟩

/-- The document the C3 provider serves for a track. -/
def c3Doc (track : TrackInfo) : Lyrics :=
  ⟨⟨track.title, track.artist, "", "test", []⟩, [⟨0, none, track.title⟩]⟩

/-- A provider that always finds a (track-specific) document. -/
def c3Provider : LyricsProvider := ⟨"test", fun track => .ok (some (c3Doc track))⟩

/-- C3 counterexample: `TrackChanged(P, Song1)` then
`TrackChanged(P, Song2)` are both handled before either spawned fetch
completes (both are pending); if Song2's fetch completes first and
Song1's completes last, the cache write of the *older* track survives:
the spawned completion (src/lyrics/mod.rs:346-366) inserts
unconditionally, with no check that the fetched track is still the
latest requested one.  This refutes the claim that Song2's document is
cached irrespective of fetch completion order. -/
theorem C3_counterexample :
    (let s1 := (handleTrackChangedSync ⟨[], none, [], [], []⟩ "P" c3Track1).1
     let s2 := (handleTrackChangedSync s1 "P" c3Track2).1
     let s3 := applyFetchCompletion [c3Provider] s2 ("P", c3Track2)
     let s4 := applyFetchCompletion [c3Provider] s3 ("P", c3Track1)
     s2.pending_fetches = [("P", c3Track1), ("P", c3Track2)] ∧
     lookupAL "P" s4.current_lyrics = some (c3Doc c3Track1) ∧
     c3Doc c3Track1 ≠ c3Doc c3Track2) := by
  decide

/-- C3 (amended): the document finally cached for P is the one
produced by whichever of P's fetches *completes last* with a document
(completion order, not request order, decides); a fetch result for a
superseded track is not discarded — if it completes after the newer
track's fetch, it overwrites the cache.  Formally, applying any sequence
of fetch completions folds the per-player cache entry by
"last successful completion wins". -/
theorem C3_last_completion_wins (providers : List LyricsProvider)
    (s : OrchState) (P : String) (completions : List (String × TrackInfo)) :
    lookupAL P (completions.foldl (applyFetchCompletion providers) s).current_lyrics =
      completions.foldl
        (fun acc fetch =>
          if fetch.1 = P then
            match (fetchLyricsFromProviders providers fetch.2).1 with
            | some lyrics => some lyrics
            | none => acc
          else acc)
        (lookupAL P s.current_lyrics) := by
  induction completions generalizing s with
  | nil => rfl
  | cons f rest ih =>
    simp only [List.foldl_cons]
    rw [ih]
    congr 1
    unfold applyFetchCompletion
    rcases hfetch : (fetchLyricsFromProviders providers f.2).1 with _ | lyr
    · by_cases hp : f.1 = P <;> simp [hp]
    · by_cases hp : f.1 = P
      · subst hp
        simp [lookupAL_insert]
      · simp [hp, lookupAL_insert_ne _ _ (fun h => hp h.symm)]

/-! ## Claim C4: TrackChanged with an empty title -/

/-- States reachable by the serial schedule: a cached document exists
for a player only when the player's stored track has a non-blank title
(every cache write comes from a fetch, and a fetch for a blank title
returns nothing). -/
def CacheTitledInv (s : OrchState) : Prop :=
  ∀ p lyr, lookupAL p s.current_lyrics = some lyr →
    ∃ t, lookupAL p s.current_track = some t ∧ trimIsEmpty t.title = false

/-- C4 (functional correctness): handling a `TrackChanged` for
player P whose `TrackInfo` has an empty title invokes no provider
(the spawned `fetch_lyrics_from_providers` returns before touching any
provider, src/lyrics/mod.rs:383-386) and leaves the lyrics cache with
no entry for P — the handler removed any previously cached document
(src/lyrics/mod.rs:334-338) and the fetch writes nothing back. -/
theorem C4_empty_title_no_fetch_and_cache_cleared
    (providers : List LyricsProvider) (s : OrchState) (P : String) (T : TrackInfo)
    (hInv : CacheTitledInv s) (hTitle : T.title = "") :
    (handleTrackChangedSerial providers s P T).2 = [] ∧
    lookupAL P (handleTrackChangedSerial providers s P T).1.current_lyrics = none := by
  have htrim : trimIsEmpty T.title = true := by rw [hTitle]; rfl
  have hfetch : fetchLyricsFromProviders providers T = (none, []) := by
    unfold fetchLyricsFromProviders
    rw [htrim]
    rfl
  by_cases hdup : isDuplicateTrack s P T = true
  · unfold handleTrackChangedSerial
    rw [if_pos hdup]
    refine ⟨rfl, ?_⟩
    rcases hc : lookupAL P s.current_lyrics with _ | lyr
    · rfl
    · exfalso
      obtain ⟨t, ht, htne⟩ := hInv P lyr hc
      unfold isDuplicateTrack at hdup
      rw [ht] at hdup
      simp only at hdup
      have hts : t.title = T.title := eq_of_beq ((Bool.and_eq_true _ _).mp hdup).1
      rw [hts, htrim] at htne
      simp at htne
  · have hdup' : isDuplicateTrack s P T = false := by
      simpa using hdup
    unfold handleTrackChangedSerial
    rw [if_neg hdup]
    constructor
    · rw [hfetch]
    · unfold applyFetchCompletion
      rw [hfetch]
      simp only [handleTrackChangedSync, hdup', Bool.false_eq_true, if_false]
      exact lookupAL_remove_self P s.current_lyrics

/-- A document used as pre-existing cache content in witnesses. -/
def staleDoc : Lyrics := ⟨⟨"x", "y", "", "old", []⟩, [⟨0, none, "old line"⟩]⟩

/-- A state in which player P has a cached document and a stored track
with non-blank title. -/
def c4State : OrchState :=
  ⟨[("P", staleDoc)], some "P", [("P", ⟨"x", "y", "", 0, "/t"⟩)], [], []⟩

/-- Witness for C4: in a state with a previously cached document for P,
an empty-title `TrackChanged` invokes no provider and leaves no cache
entry for P. -/
theorem C4_empty_title_no_fetch_and_cache_cleared_witness :
    (handleTrackChangedSerial [c3Provider] c4State "P" ⟨"", "y", "", 0, "/t2"⟩).2 = [] ∧
    lookupAL "P"
      (handleTrackChangedSerial [c3Provider] c4State "P"
        ⟨"", "y", "", 0, "/t2"⟩).1.current_lyrics = none :=
  C4_empty_title_no_fetch_and_cache_cleared [c3Provider] c4State "P" _
    (fun p lyr h => by
      by_cases hp : p = "P"
      · subst hp
        exact ⟨⟨"x", "y", "", 0, "/t"⟩, by decide, by decide⟩
      · simp [c4State, lookupAL, hp] at h)
    rfl

/-! ## Claim C5: provider fallback in priority order -/

/-- A provider "misses" a track when its search returns `Ok(None)`, an
error, or a document with no lines (all skipped by the fallback loop). -/
def providerMisses (provider : LyricsProvider) (track : TrackInfo) : Bool :=
  match provider.search_lyrics track with
  | .ok (some lyrics) => lyrics.lines.isEmpty
  | .ok none => true
  | .error _ => true

theorem fetch_go_all_miss (track : TrackInfo) (ps : List LyricsProvider)
    (h : ∀ q ∈ ps, providerMisses q track = true) :
    fetchLyricsFromProviders.go track ps = (none, ps.map (fun q => q.name)) := by
  induction ps with
  | nil => rfl
  | cons q rest ih =>
    have hq := h q (List.mem_cons_self q rest)
    have hrest := ih (fun r hr => h r (List.mem_cons_of_mem q hr))
    unfold providerMisses at hq
    unfold fetchLyricsFromProviders.go
    rcases hs : q.search_lyrics track with e | o
    · simp [hs, hrest]
    · rcases o with _ | lyr
      · simp [hs, hrest]
      · rw [hs] at hq
        simp only at hq
        rcases hll : lyr.lines with _ | ⟨a, arest⟩
        · simp [hs, hrest, hll]
        · rw [hll] at hq
          simp at hq

theorem fetch_go_first_hit (track : TrackInfo) (ps₁ : List LyricsProvider)
    (p : LyricsProvider) (ps₂ : List LyricsProvider) (d : Lyrics)
    (hmiss : ∀ q ∈ ps₁, providerMisses q track = true)
    (hp : p.search_lyrics track = .ok (some d)) (hd : d.lines ≠ []) :
    fetchLyricsFromProviders.go track (ps₁ ++ p :: ps₂) =
      (some d, ps₁.map (fun q => q.name) ++ [p.name]) := by
  induction ps₁ with
  | nil =>
    unfold fetchLyricsFromProviders.go
    rcases hll : d.lines with _ | ⟨a, arest⟩
    · exact absurd hll hd
    · simp [hp, hll]
  | cons q rest ih =>
    have hq := hmiss q (List.mem_cons_self q rest)
    have hrest := ih (fun r hr => hmiss r (List.mem_cons_of_mem q hr))
    unfold providerMisses at hq
    unfold fetchLyricsFromProviders.go
    rcases hs : q.search_lyrics track with e | o
    · simp [hs, hrest]
    · rcases o with _ | lyr
      · simp [hs, hrest]
      · rw [hs] at hq
        simp only at hq
        rcases hll : lyr.lines with _ | ⟨a, arest⟩
        · simp [hs, hrest, hll]
        · rw [hll] at hq
          simp at hq

/-- C5 (amended) (error handling): handling a `TrackChanged` whose
title is non-blank *and which is not a duplicate re-report of the
player's stored track (same title and artist — such events are ignored
entirely)* first removes P's cached document and then queries the
configured providers strictly in priority order; the first provider
returning a non-empty document is cached for P and no later provider is
invoked; a provider returning an error (or no/empty lyrics) is skipped;
if every provider misses, no entry remains for P.  The handler's return
is always `Ok` in the source, so no error propagates to the caller. -/
theorem C5_priority_order_first_hit_wins
    (providers : List LyricsProvider) (s : OrchState) (P : String) (T : TrackInfo)
    (hdup : isDuplicateTrack s P T = false)
    (htitle : trimIsEmpty T.title = false) :
    (∀ ps₁ p ps₂ d, providers = ps₁ ++ p :: ps₂ →
      (∀ q ∈ ps₁, providerMisses q T = true) →
      p.search_lyrics T = .ok (some d) → d.lines ≠ [] →
      (handleTrackChangedSerial providers s P T).2 =
          ps₁.map (fun q => q.name) ++ [p.name] ∧
      lookupAL P (handleTrackChangedSerial providers s P T).1.current_lyrics = some d) ∧
    ((∀ q ∈ providers, providerMisses q T = true) →
      (handleTrackChangedSerial providers s P T).2 = providers.map (fun q => q.name) ∧
      lookupAL P (handleTrackChangedSerial providers s P T).1.current_lyrics = none) := by
  have hserial : handleTrackChangedSerial providers s P T =
      (applyFetchCompletion providers (handleTrackChangedSync s P T).1 (P, T),
       (fetchLyricsFromProviders providers T).2) := by
    unfold handleTrackChangedSerial
    rw [if_neg (by simp [hdup])]
  have hsync : (handleTrackChangedSync s P T).1.current_lyrics =
      removeAL P s.current_lyrics := by
    unfold handleTrackChangedSync
    rw [if_neg (by simp [hdup])]
  have hfetch : fetchLyricsFromProviders providers T =
      fetchLyricsFromProviders.go T providers := by
    unfold fetchLyricsFromProviders
    rw [htitle]
    rfl
  constructor
  · intro ps₁ p ps₂ d hsplit hmiss hp hd
    subst hsplit
    have hfg : fetchLyricsFromProviders (ps₁ ++ p :: ps₂) T =
        (some d, ps₁.map (fun q => q.name) ++ [p.name]) :=
      hfetch.trans (fetch_go_first_hit T ps₁ p ps₂ d hmiss hp hd)
    rw [hserial]
    constructor
    · rw [hfg]
    · simp only [applyFetchCompletion, hfg]
      simp [lookupAL_insert]
  · intro hmiss
    have hfg : fetchLyricsFromProviders providers T =
        (none, providers.map (fun q => q.name)) :=
      hfetch.trans (fetch_go_all_miss T providers hmiss)
    rw [hserial]
    constructor
    · rw [hfg]
    · simp only [applyFetchCompletion, hfg]
      simp [hsync, lookupAL_remove_self]

/-- A track whose stored twin in `c5State` shares title and artist but
differs in album, length and id. -/
def c5NewTrack : TrackInfo := ⟨"x", "y", "other", 200, "/t2"⟩

/-- The pre-state of the C5 counterexample: P has a cached document and
a stored track with the same title/artist as the incoming event. -/
def c5State : OrchState :=
  ⟨[("P", staleDoc)], some "P", [("P", ⟨"x", "y", "alb", 100, "/t1"⟩)], [], []⟩

/-- C5 counterexample: a `TrackChanged` with a *non-empty* title
that matches the stored track's title and artist is treated as a
duplicate (src/lyrics/mod.rs:283-300): the handler returns immediately,
invokes no provider, and P's previously cached document is *not*
removed — contradicting the claim that every non-empty-title
`TrackChanged` first clears the cache and then queries the providers
(a provider that would return a fresh document is never consulted). -/
theorem C5_counterexample :
    (handleTrackChangedSerial [c3Provider] c5State "P" c5NewTrack).2 = [] ∧
    lookupAL "P"
      (handleTrackChangedSerial [c3Provider] c5State "P" c5NewTrack).1.current_lyrics =
      some staleDoc ∧
    c5NewTrack.title ≠ "" := by
  decide

/-- A provider whose search always fails with a transient error. -/
def errProvider : LyricsProvider := ⟨"err", fun _ => .error "boom"⟩

/-- Witness for C5: a failing provider followed by a succeeding one —
both are invoked in order, the second one's document is cached. -/
theorem C5_priority_order_first_hit_wins_witness :
    (handleTrackChangedSerial [errProvider, c3Provider]
        ⟨[], none, [], [], []⟩ "P" c3Track1).2 = ["err", "test"] ∧
    lookupAL "P"
      (handleTrackChangedSerial [errProvider, c3Provider]
        ⟨[], none, [], [], []⟩ "P" c3Track1).1.current_lyrics = some (c3Doc c3Track1) :=
  (C5_priority_order_first_hit_wins [errProvider, c3Provider]
      ⟨[], none, [], [], []⟩ "P" c3Track1 rfl rfl).1
    [errProvider] c3Provider [] (c3Doc c3Track1) rfl (by decide) rfl (by decide)

/-! ## Claim C7: time-indexed lyric lookup -/

/-- C7 counterexample: with a (trivially sorted) cached document
whose single line starts at 1000 ms, `get_lyric_at_time(0)` returns
`none` — the loop of src/lyrics/mod.rs:441-455 only ever returns a line
whose start time is ≤ the query time, so a query before the first
line's start yields no line, not the first line as claimed. -/
theorem C7_counterexample :
    getLyricAtTime
      ⟨[("P", ⟨⟨"t", "a", "", "s", []⟩, [⟨1000, none, "First"⟩]⟩)],
        some "P", [], [], []⟩ 0 = none ∧ (0 : Nat) < 1000 := by
  decide

theorem lyricLineAtTime_none_of_lt (time_ms : Nat) (lines : List LyricLine)
    (h : ∀ l ∈ lines, time_ms < l.start_time) :
    lyricLineAtTime time_ms lines = none := by
  induction lines with
  | nil => rfl
  | cons l rest ih =>
    rcases rest with _ | ⟨l2, rest2⟩
    · have hl := h l (List.mem_cons_self l [])
      simp [lyricLineAtTime, Nat.not_le.mpr hl]
    · simp only [lyricLineAtTime]
      rw [if_neg]
      · exact ih (fun x hx => h x (List.mem_cons_of_mem l hx))
      · rintro ⟨h1, _⟩
        exact absurd h1 (Nat.not_le.mpr (h l (List.mem_cons_self l _)))

theorem getLast?_head_start_le :
    ∀ (x : LyricLine) (xs : List LyricLine) (last : LyricLine),
      (x :: xs).Pairwise (fun a b => a.start_time ≤ b.start_time) →
      (x :: xs).getLast? = some last → x.start_time ≤ last.start_time := by
  intro x xs
  induction xs generalizing x with
  | nil =>
    intro last _ hl
    simp only [List.getLast?_singleton, Option.some.injEq] at hl
    subst hl
    exact le_refl _
  | cons x2 xs2 ih =>
    intro last hs hl
    rw [List.getLast?_cons_cons] at hl
    have hx2 : x2.start_time ≤ last.start_time :=
      ih x2 last ((List.pairwise_cons.mp hs).2) hl
    exact le_trans ((List.pairwise_cons.mp hs).1 x2 (List.mem_cons_self x2 xs2)) hx2

theorem lyricLineAtTime_last_of_ge (time_ms : Nat) :
    ∀ (lines : List LyricLine) (last : LyricLine),
      lines.Pairwise (fun a b => a.start_time ≤ b.start_time) →
      lines.getLast? = some last → last.start_time ≤ time_ms →
      lyricLineAtTime time_ms lines = some last := by
  intro lines
  induction lines with
  | nil =>
    intro last _ hl
    simp at hl
  | cons x xs ih =>
    intro last hs hl hle
    rcases xs with _ | ⟨x2, xs2⟩
    · simp only [List.getLast?_singleton, Option.some.injEq] at hl
      subst hl
      simp [lyricLineAtTime, hle]
    · rw [List.getLast?_cons_cons] at hl
      have hx2le : x2.start_time ≤ last.start_time :=
        getLast?_head_start_le x2 xs2 last ((List.pairwise_cons.mp hs).2) hl
      simp only [lyricLineAtTime]
      rw [if_neg]
      · exact ih last ((List.pairwise_cons.mp hs).2) hl hle
      · rintro ⟨_, hlt⟩
        exact absurd (lt_of_lt_of_le hlt (le_trans hx2le hle)) (lt_irrefl _)

theorem lyricLineAtTime_finds (time_ms : Nat) (x : LyricLine) (xs : List LyricLine)
    (hx : x.start_time ≤ time_ms) :
    ∃ i, ∃ h : i < (x :: xs).length,
      lyricLineAtTime time_ms (x :: xs) = some ((x :: xs).get ⟨i, h⟩) ∧
      ((x :: xs).get ⟨i, h⟩).start_time ≤ time_ms ∧
      ∀ h2 : i + 1 < (x :: xs).length,
        time_ms < ((x :: xs).get ⟨i + 1, h2⟩).start_time := by
  induction xs generalizing x with
  | nil =>
    refine ⟨0, by simp, ?_, ?_, ?_⟩
    · simp [lyricLineAtTime, hx]
    · simpa using hx
    · intro h2
      simp at h2
  | cons x2 xs2 ih =>
    by_cases hcond : time_ms < x2.start_time
    · refine ⟨0, by simp, ?_, ?_, ?_⟩
      · simp [lyricLineAtTime, hx, hcond]
      · simpa using hx
      · intro h2
        simpa using hcond
    · have hx2 : x2.start_time ≤ time_ms := Nat.le_of_not_lt hcond
      obtain ⟨i, h, h1, h2, h3⟩ := ih x2 hx2
      have hskip : lyricLineAtTime time_ms (x :: x2 :: xs2) =
          lyricLineAtTime time_ms (x2 :: xs2) := by
        simp [lyricLineAtTime, hcond]
      refine ⟨i + 1, by simpa using h, ?_, ?_, ?_⟩
      · rw [hskip]
        exact h1
      · exact h2
      · intro hh
        exact h3 (by simpa using hh)

/-- C7 (amended) (functional correctness): for a document whose
lines are sorted ascending by `start_time`, `get_lyric_at_time(ms)`
returns a line whose interval `[start, next-start)` contains `ms`
(`end_time` is not consulted; for repository documents `end_time[i]` is
exactly `start_time[i+1]` when present, so the intervals coincide); if
`ms` is at or beyond the last line's start it returns the last line;
but if `ms` *precedes the first line's start it returns `none`*, not
the first line.  The embedded lookup is a pure function of the document,
so the document is not mutated. -/
theorem C7_interval_lookup (lines : List LyricLine) (time_ms : Nat)
    (first last : LyricLine)
    (hsorted : lines.Pairwise (fun a b => a.start_time ≤ b.start_time))
    (hfirst : lines.head? = some first) (hlast : lines.getLast? = some last) :
    (time_ms < first.start_time → lyricLineAtTime time_ms lines = none) ∧
    (last.start_time ≤ time_ms → lyricLineAtTime time_ms lines = some last) ∧
    (first.start_time ≤ time_ms →
      ∃ i, ∃ h : i < lines.length,
        lyricLineAtTime time_ms lines = some (lines.get ⟨i, h⟩) ∧
        (lines.get ⟨i, h⟩).start_time ≤ time_ms ∧
        ∀ h2 : i + 1 < lines.length,
          time_ms < (lines.get ⟨i + 1, h2⟩).start_time) := by
  rcases lines with _ | ⟨x, xs⟩
  · simp at hfirst
  · have hx : x = first := by simpa using hfirst
    subst hx
    refine ⟨?_, ?_, ?_⟩
    · intro hlt
      apply lyricLineAtTime_none_of_lt
      intro l hl
      rcases List.mem_cons.mp hl with rfl | hl
      · exact hlt
      · exact lt_of_lt_of_le hlt ((List.pairwise_cons.mp hsorted).1 l hl)
    · intro hge
      exact lyricLineAtTime_last_of_ge time_ms _ last hsorted hlast hge
    · intro hle
      exact lyricLineAtTime_finds time_ms x xs hle

/-- The three-line document of the specification's round-trip example. -/
def c7Lines : List LyricLine :=
  [⟨0, some 3330, "A"⟩, ⟨3330, some 5760, "B"⟩, ⟨5760, none, "C"⟩]

/-- Witness for C7: on the sorted three-line document, a query beyond
the last start time returns the last line. -/
theorem C7_interval_lookup_witness :
    lyricLineAtTime 9999 c7Lines = some ⟨5760, none, "C"⟩ :=
  (C7_interval_lookup c7Lines 9999 ⟨0, some 3330, "A"⟩ ⟨5760, none, "C"⟩
      (by decide) (by decide) (by decide)).2.1 (by decide)

/-! ## src/utils/lrc.rs — the LRC parser

The claims cite `src/utils/lrc.rs`, which extracts the lyric text after
the *last* timestamp tag (`max_tag_end`); the embedding below follows
that file.  Strings are processed as `List Char`; the regex `\d` is
modelled as ASCII `Char.isDigit` (and `str::parse::<u64>` succeeds on
every captured ASCII digit run, so the embedded parser is total). -/

/-- Numeric value of an ASCII digit. -/
def digitVal (c : Char) : Nat := c.toNat - '0'.toNat

/-- The `str::parse::<u64>` on an ASCII digit run. -/
def digitsToNat (ds : List Char) : Nat :=
  ds.foldl (fun acc c => acc * 10 + digitVal c) 0

/-- Normalisation of the fractional-second capture
(src/utils/lrc.rs:43-55): one digit is hundredths ×100, two digits are
tenths-of-hundredths ×10, otherwise the value is taken as milliseconds;
an absent capture is 0. -/
def fracMillis (ms_str : List Char) : Nat :=
  if ms_str.isEmpty then 0
  else if ms_str.length = 1 then digitsToNat ms_str * 100
  else if ms_str.length = 2 then digitsToNat ms_str * 10
  else digitsToNat ms_str

/-- A greedy run of at most `n` ASCII digits. -/
def takeDigitsUpTo (n : Nat) : List Char → List Char × List Char
  | [] => ([], [])
  | c :: rest =>
    match n with
    | 0 => ([], c :: rest)
    | m + 1 =>
      if c.isDigit then
        let (ds, rest') := takeDigitsUpTo m rest
        (c :: ds, rest')
      else ([], c :: rest)

/-- One attempt of the timestamp regex `\[(\d{2}):(\d{2})\.?(\d{0,3})]`
(src/utils/lrc.rs:15) at the head of the input: `[`, two digits, `:`,
two digits, an optional `.`, a greedy run of at most three digits, then
`]`.  This deterministic reading is equivalent to the backtracking
regex: giving back digits only exposes another digit (never `]`), and
giving back the consumed `.` exposes `.` (never `]`), so no backtrack
can succeed where the greedy pass failed.  On success, the value is the
tag's total milliseconds (src/utils/lrc.rs:57) and the rest of the
input after `]`. -/
def matchTimeTag : List Char → Option (Nat × List Char)
  | '[' :: a :: b :: ':' :: c :: d :: rest =>
    if a.isDigit && b.isDigit && c.isDigit && d.isDigit then
      let rest1 := match rest with
        | '.' :: r => r
        | _ => rest
      let (frac, rest2) := takeDigitsUpTo 3 rest1
      match rest2 with
      | ']' :: rest3 =>
        some (((digitVal a * 10 + digitVal b) * 60 + (digitVal c * 10 + digitVal d)) * 1000 +
          fracMillis frac, rest3)
      | _ => none
    else none
  | _ => none

/-- The `time_regex.captures_iter` over one line
(src/utils/lrc.rs:40-62): all non-overlapping matches, left to right,
with the input remaining after the *last* match (the source's
`max_tag_end` is the end of the last match, since successive
non-overlapping matches have strictly increasing ends).  The scan may
advance one character at a time because every match starts with `[` and
contains no further `[`, so no match can begin strictly inside another
— position-by-position scanning finds exactly the regex's matches. -/
def timeScan : List Char → List Nat × Option (List Char)
  | [] => ([], none)
  | c :: cs =>
    match matchTimeTag (c :: cs) with
    | some (t, rest) =>
      let (ts, suffix) := timeScan cs
      (t :: ts, some (suffix.getD rest))
    | none => timeScan cs

/-- ASCII letter class `[a-zA-Z]`. -/
def isAsciiLetter (c : Char) : Bool :=
  ('a' ≤ c && c ≤ 'z') || ('A' ≤ c && c ≤ 'Z')

/-- Split at the first `]`: the characters before it and the rest
after it. -/
def splitAtCloseBracket : List Char → Option (List Char × List Char)
  | [] => none
  | ']' :: rest => some ([], rest)
  | c :: rest =>
    match splitAtCloseBracket rest with
    | some (mid, after) => some ((c :: mid), after)
    | none => none

/-- One attempt of the metadata regex `\[([a-zA-Z]+):(.+?)]`
(src/utils/lrc.rs:18) at the head of the input: `[`, a non-empty greedy
letter run (giving letters back only exposes a letter, never `:`, so
greedy is exact), `:`, then the lazy `(.+?)]`: at least one character
followed by the first `]` thereafter. -/
def matchMetaTag : List Char → Option ((List Char × List Char) × List Char)
  | '[' :: rest =>
    let (key, rest1) := rest.span isAsciiLetter
    if key.isEmpty then none
    else
      match rest1 with
      | ':' :: c :: r2 =>
        match splitAtCloseBracket r2 with
        | some (mid, after) => some ((key, c :: mid), after)
        | none => none
      | _ => none
  | _ => none

/-- The `meta_regex.is_match(line)` (src/utils/lrc.rs:27): a match attempt
succeeds at some position. -/
def metaIsMatch : List Char → Bool
  | [] => false
  | c :: cs => (matchMetaTag (c :: cs)).isSome || metaIsMatch cs

/-- The `meta_regex.captures_iter(line)` (src/utils/lrc.rs:28-32):
leftmost non-overlapping matches; after a match the scan resumes at its
end, so the fuel (one unit per consumed character) always suffices. -/
def metaCapturesFuel : Nat → List Char → List (List Char × List Char)
  | 0, _ => []
  | _, [] => []
  | fuel + 1, c :: cs =>
    match matchMetaTag (c :: cs) with
    | some (kv, rest) => kv :: metaCapturesFuel fuel rest
    | none => metaCapturesFuel fuel cs

/-- All metadata captures of a line. -/
def metaCaptures (line : List Char) : List (List Char × List Char) :=
  metaCapturesFuel line.length line

/-- The `str::trim` on the character list (Rust trims Unicode
`White_Space`; `Char.isWhitespace` covers the cases that occur in LRC
files). -/
def trimChars (cs : List Char) : List Char :=
  ((cs.dropWhile Char.isWhitespace).reverse.dropWhile Char.isWhitespace).reverse

/-- Split at every newline character (always at least one segment). -/
def splitOnNewline : List Char → List (List Char)
  | [] => [[]]
  | c :: rest =>
    if c = '\n' then [] :: splitOnNewline rest
    else
      match splitOnNewline rest with
      | seg :: segs => (c :: seg) :: segs
      | [] => [[c]]

/-- Strip one trailing carriage return. -/
def stripCR (cs : List Char) : List Char :=
  if cs.getLast? = some '\r' then cs.dropLast else cs

/-- The `str::lines` (src/utils/lrc.rs:20): split on `\n` without a final
empty segment when the text ends in `\n`, stripping a `\r` left at a
segment end.  (Rust strips `\r` only before a `\n`; since every segment
is immediately `trim`med by the parser the difference is unobservable.) -/
def splitLines (cs : List Char) : List (List Char) :=
  if cs.isEmpty then []
  else if cs.getLast? = some '\n' then ((splitOnNewline cs).dropLast).map stripCR
  else (splitOnNewline cs).map stripCR

/-- Stable insertion by timestamp key: an element moves ahead only of
strictly larger keys, so equal keys keep their arrival order — the same
result as the source's stable `sort_by_key` (src/utils/lrc.rs:77). -/
def insertByStart (x : Nat × String) : List (Nat × String) → List (Nat × String)
  | [] => [x]
  | y :: ys => if x.1 < y.1 then x :: y :: ys else y :: insertByStart x ys

/-- Stable sort by timestamp (`time_lyrics.sort_by_key`). -/
def sortByStart (l : List (Nat × String)) : List (Nat × String) :=
  l.foldl (fun acc x => insertByStart x acc) []

/-- Processing of one (raw) line of `LrcParser::parse`
(src/utils/lrc.rs:20-74): trim; skip blank lines; a line matching the
metadata regex anywhere is consumed entirely as metadata; otherwise
collect the timestamp tags, and when there is at least one tag and the
trimmed text after the last tag is non-empty, push one entry per tag
with that text. -/
def lrcParseLine (acc : List (Nat × String) × List (String × String))
    (rawLine : List Char) : List (Nat × String) × List (String × String) :=
  let line := trimChars rawLine
  if line.isEmpty then acc
  else if metaIsMatch line then
    (acc.1, acc.2 ++ (metaCaptures line).map (fun kv => ((⟨kv.1⟩ : String), (⟨kv.2⟩ : String))))
  else
    let (timestamps, suffix) := timeScan line
    if timestamps.isEmpty then acc
    else
      let text := trimChars (suffix.getD [])
      if text.isEmpty then acc
      else (acc.1 ++ timestamps.map (fun t => (t, (⟨text⟩ : String))), acc.2)

namespace LrcParser

/-- The `LrcParser::parse` (src/utils/lrc.rs:10-80): per-line processing,
then the stable sort of the timed entries.  Always `Ok` in the source
(every captured group is an ASCII digit run, on which `parse::<u64>`
succeeds), so the embedding is total. -/
def parse (content : List Char) : List (Nat × String) × List (String × String) :=
  let (time_lyrics, metadata) := (splitLines content).foldl lrcParseLine ([], [])
  (sortByStart time_lyrics, metadata)

end LrcParser

/-- The conversion of parsed `(time, text)` pairs into `LyricLine`s by
`LocalProvider::parse_lrc_file` (src/lyrics/providers/local.rs:149-161):
each line's `end_time` is the next line's start, the last has none. -/
def toLyricLines : List (Nat × String) → List LyricLine
  | [] => []
  | [(t, x)] => [⟨t, none, x⟩]
  | (t, x) :: (t2, y) :: rest => ⟨t, some t2, x⟩ :: toLyricLines ((t2, y) :: rest)

/-! ## Sortedness and permutation facts about the parser's sort -/

theorem mem_insertByStart {z x : Nat × String} {l : List (Nat × String)}
    (h : z ∈ insertByStart x l) : z = x ∨ z ∈ l := by
  induction l with
  | nil => simpa [insertByStart] using h
  | cons y ys ih =>
    by_cases hc : x.1 < y.1
    · simp only [insertByStart, if_pos hc] at h
      rcases List.mem_cons.mp h with rfl | h
      · exact Or.inl rfl
      · exact Or.inr h
    · simp only [insertByStart, if_neg hc] at h
      rcases List.mem_cons.mp h with rfl | h
      · exact Or.inr (List.mem_cons_self _ _)
      · rcases ih h with h | h
        · exact Or.inl h
        · exact Or.inr (List.mem_cons_of_mem _ h)

theorem pairwise_insertByStart (x : Nat × String) (l : List (Nat × String))
    (h : l.Pairwise (fun a b => a.1 ≤ b.1)) :
    (insertByStart x l).Pairwise (fun a b => a.1 ≤ b.1) := by
  induction l with
  | nil => simp [insertByStart]
  | cons y ys ih =>
    rcases List.pairwise_cons.mp h with ⟨hy, hys⟩
    by_cases hc : x.1 < y.1
    · simp only [insertByStart, if_pos hc]
      refine List.pairwise_cons.mpr ⟨?_, h⟩
      intro z hz
      rcases List.mem_cons.mp hz with rfl | hz
      · exact Nat.le_of_lt hc
      · exact le_trans (Nat.le_of_lt hc) (hy z hz)
    · simp only [insertByStart, if_neg hc]
      refine List.pairwise_cons.mpr ⟨?_, ih hys⟩
      intro z hz
      rcases mem_insertByStart hz with rfl | hz
      · exact Nat.le_of_not_lt hc
      · exact hy z hz

theorem pairwise_sortByStart (l : List (Nat × String)) :
    (sortByStart l).Pairwise (fun a b => a.1 ≤ b.1) := by
  have go : ∀ (l acc : List (Nat × String)), acc.Pairwise (fun a b => a.1 ≤ b.1) →
      (l.foldl (fun acc x => insertByStart x acc) acc).Pairwise (fun a b => a.1 ≤ b.1) := by
    intro l
    induction l with
    | nil => exact fun acc h => h
    | cons x xs ih => exact fun acc h => ih _ (pairwise_insertByStart x acc h)
  exact go l [] (by simp)

theorem insertByStart_perm (x : Nat × String) (l : List (Nat × String)) :
    (insertByStart x l).Perm (x :: l) := by
  induction l with
  | nil => simp [insertByStart]
  | cons y ys ih =>
    by_cases hc : x.1 < y.1
    · simp only [insertByStart, if_pos hc]
      exact List.Perm.refl _
    · simp only [insertByStart, if_neg hc]
      exact (ih.cons y).trans (List.Perm.swap x y ys)

theorem sortByStart_perm (l : List (Nat × String)) : (sortByStart l).Perm l := by
  have go : ∀ (l acc : List (Nat × String)),
      (l.foldl (fun acc x => insertByStart x acc) acc).Perm (acc ++ l) := by
    intro l
    induction l with
    | nil => intro acc; simp
    | cons x xs ih =>
      intro acc
      refine (ih (insertByStart x acc)).trans ?_
      refine (((insertByStart_perm x acc).append_right xs)).trans ?_
      simp only [List.cons_append]
      exact List.perm_middle.symm
  simpa using go l []

/-! ## Claim C8: the round-trip example and normalisation -/

/-- The three-line LRC text of the round-trip example. -/
def c8Input : List Char := ("[00:00.00]A\n[00:03.33]B\n[00:05.76]C").data

/-- C8 (algebraic/relational): parsing the three-line LRC text and
converting it to a document yields exactly three lines with starts
0/3330/5760 ms and end times 3330/5760/none; a fractional-second field
of 1–3 digits is normalised to milliseconds by ×100/×10/×1
(`value · 10^(3−len)`); and for every input the parsed entries come out
sorted ascending by timestamp. -/
theorem C8_roundtrip_ends_and_normalisation (ds : List Char)
    (h1 : ds ≠ []) (h2 : ds.length ≤ 3) :
    toLyricLines (LrcParser.parse c8Input).1 =
      [⟨0, some 3330, "A"⟩, ⟨3330, some 5760, "B"⟩, ⟨5760, none, "C"⟩] ∧
    fracMillis ds = digitsToNat ds * 10 ^ (3 - ds.length) ∧
    ∀ content : List Char,
      (LrcParser.parse content).1.Pairwise (fun a b => a.1 ≤ b.1) := by
  refine ⟨by decide, ?_, ?_⟩
  · match ds, h1, h2 with
    | [c], _, _ => norm_num [fracMillis]
    | [c1, c2], _, _ => norm_num [fracMillis]
    | [c1, c2, c3], _, _ => norm_num [fracMillis]
    | c1 :: c2 :: c3 :: c4 :: rest, _, h2 => simp at h2
  · intro content
    rcases h : (splitLines content).foldl lrcParseLine ([], []) with ⟨tl, md⟩
    simp only [LrcParser.parse, h]
    exact pairwise_sortByStart tl

/-- Witness for C8: the normalisation at concrete 1-, 2- and 3-digit
fractional fields. -/
theorem C8_roundtrip_ends_and_normalisation_witness :
    fracMillis ['3'] = 300 ∧ fracMillis ['3', '3'] = 330 ∧
    fracMillis ['1', '2', '3'] = 123 :=
  ⟨((C8_roundtrip_ends_and_normalisation ['3'] (by decide) (by decide)).2.1).trans (by decide),
   ((C8_roundtrip_ends_and_normalisation ['3', '3'] (by decide) (by decide)).2.1).trans
     (by decide),
   ((C8_roundtrip_ends_and_normalisation ['1', '2', '3'] (by decide) (by decide)).2.1).trans
     (by decide)⟩

/-! ## Claim C10: which lines contribute lyric entries -/

/-- The timed entries one raw line contributes to the parse. -/
def lrcLineEntries (rawLine : List Char) : List (Nat × String) :=
  (lrcParseLine ([], []) rawLine).1

theorem lrcParseLine_fst (acc : List (Nat × String) × List (String × String))
    (l : List Char) : (lrcParseLine acc l).1 = acc.1 ++ lrcLineEntries l := by
  unfold lrcLineEntries lrcParseLine
  by_cases hemp : (trimChars l).isEmpty
  · simp [hemp]
  · by_cases hmeta : metaIsMatch (trimChars l)
    · simp [hemp, hmeta]
    · rcases hts : timeScan (trimChars l) with ⟨ts, suf⟩
      by_cases htse : ts.isEmpty
      · simp [hemp, hmeta, hts, htse]
      · by_cases htxt : (trimChars (suf.getD [])).isEmpty
        · simp [hemp, hmeta, hts, htse, htxt]
        · simp [hemp, hmeta, hts, htse, htxt]

theorem foldl_lrcParseLine_fst (lines : List (List Char))
    (acc : List (Nat × String) × List (String × String)) :
    (lines.foldl lrcParseLine acc).1 =
      acc.1 ++ (lines.map lrcLineEntries).flatten := by
  induction lines generalizing acc with
  | nil => simp
  | cons l rest ih =>
    simp only [List.foldl_cons, List.map_cons, List.flatten_cons]
    rw [ih, lrcParseLine_fst, List.append_assoc]

/-- C10 (amended) (functional correctness): for every input, the
parsed entry list is a permutation (the final stable sort) of the
per-line contributions, where a line contributes entries only when it
does **not** match the metadata pattern `[letters:…]` anywhere (a line
matching it — even one that also carries valid timestamp tags and text —
is consumed entirely as metadata and contributes zero entries), carries
at least one valid timestamp tag, and has non-empty trimmed text after
the last tag; such a line with k tags contributes exactly k entries,
all with that same text. -/
theorem C10_line_contributions (content rawLine : List Char) :
    (LrcParser.parse content).1.Perm (((splitLines content).map lrcLineEntries).flatten) ∧
    (metaIsMatch (trimChars rawLine) = true → lrcLineEntries rawLine = []) ∧
    ((timeScan (trimChars rawLine)).1 = [] → lrcLineEntries rawLine = []) ∧
    (trimChars (((timeScan (trimChars rawLine)).2).getD []) = [] →
      lrcLineEntries rawLine = []) ∧
    (metaIsMatch (trimChars rawLine) = false →
      (timeScan (trimChars rawLine)).1 ≠ [] →
      trimChars (((timeScan (trimChars rawLine)).2).getD []) ≠ [] →
      lrcLineEntries rawLine =
        (timeScan (trimChars rawLine)).1.map
          (fun t => (t, (⟨trimChars (((timeScan (trimChars rawLine)).2).getD [])⟩ : String)))) := by
  refine ⟨?_, ?_, ?_, ?_, ?_⟩
  · rcases h : (splitLines content).foldl lrcParseLine ([], []) with ⟨tl, md⟩
    have h1 : tl = ((splitLines content).map lrcLineEntries).flatten := by
      have := foldl_lrcParseLine_fst (splitLines content) ([], [])
      rw [h] at this
      simpa using this
    simp only [LrcParser.parse, h]
    rw [h1]
    exact sortByStart_perm _
  · intro hmeta
    unfold lrcLineEntries lrcParseLine
    by_cases hemp : (trimChars rawLine).isEmpty <;> simp [hemp, hmeta]
  · intro hts0
    unfold lrcLineEntries lrcParseLine
    by_cases hemp : (trimChars rawLine).isEmpty
    · simp [hemp]
    · by_cases hmeta : metaIsMatch (trimChars rawLine)
      · simp [hemp, hmeta]
      · rcases hts : timeScan (trimChars rawLine) with ⟨ts, suf⟩
        rw [hts] at hts0
        simp only at hts0
        simp [hemp, hmeta, hts, hts0]
  · intro htxt0
    unfold lrcLineEntries lrcParseLine
    by_cases hemp : (trimChars rawLine).isEmpty
    · simp [hemp]
    · by_cases hmeta : metaIsMatch (trimChars rawLine)
      · simp [hemp, hmeta]
      · rcases hts : timeScan (trimChars rawLine) with ⟨ts, suf⟩
        rw [hts] at htxt0
        simp only at htxt0
        by_cases htse : ts.isEmpty
        · simp [hemp, hmeta, hts, htse]
        · simp [hemp, hmeta, hts, htse, htxt0]
  · intro hmeta htsne htxtne
    unfold lrcLineEntries lrcParseLine
    rcases hts : timeScan (trimChars rawLine) with ⟨ts, suf⟩
    rw [hts] at htsne htxtne
    simp only at htsne htxtne
    have hemp : (trimChars rawLine).isEmpty = false := by
      cases he : trimChars rawLine
      · rw [he] at hts
        simp [timeScan] at hts
        rw [← hts.1] at htsne
        exact absurd rfl htsne
      · rfl
    have htse : ts.isEmpty = false := by
      cases hts' : ts
      · rw [hts'] at htsne
        exact absurd rfl htsne
      · rfl
    have htxte : (trimChars (suf.getD [])).isEmpty = false := by
      cases ht' : trimChars (suf.getD [])
      · exact absurd ht' htxtne
      · rfl
    simp [hemp, hmeta, hts, htse, htxte]

/-- C10 counterexample: the line `[ab:cd][00:10.00]hello` carries
one valid timestamp tag (10000 ms) followed by the non-empty text
`hello`, yet parsing it yields zero lyric entries: it matches the
metadata pattern (`[ab:cd]`), so src/utils/lrc.rs:27-34 consumes the
whole line as metadata before timestamps are ever extracted.  This
refutes the claim that every line with k valid tags and non-empty
trailing text contributes exactly k entries. -/
theorem C10_counterexample :
    (LrcParser.parse ("[ab:cd][00:10.00]hello").data).1 = [] ∧
    (timeScan (trimChars ("[ab:cd][00:10.00]hello").data)).1 = [10000] ∧
    trimChars (((timeScan (trimChars ("[ab:cd][00:10.00]hello").data)).2).getD []) =
      ['h', 'e', 'l', 'l', 'o'] := by
  decide

/-- Witness for C10: a tag-only line contributes nothing; a two-tag
line with text `hi` contributes exactly two entries with that text. -/
theorem C10_line_contributions_witness :
    lrcLineEntries ("[00:01.00][00:02.00]").data = [] ∧
    lrcLineEntries ("[00:01.00][00:02.00]hi").data = [(1000, "hi"), (2000, "hi")] :=
  ⟨(C10_line_contributions [] ("[00:01.00][00:02.00]").data).2.2.2.1 (by decide),
   ((C10_line_contributions [] ("[00:01.00][00:02.00]hi").data).2.2.2.2 (by decide)
      (by decide) (by decide)).trans (by decide)⟩

end MprisLyrics
